import Mathlib

/-!
Verification of the registry/selector core of claude-nexus
(src/nexus/core/capabilities.py, registry.py, selector.py, exceptions.py)
via a shallow embedding in Lean.

Modelling conventions:
* A Python class object is modelled by `PyType` (identity plus its dunder
  name `__name__`).  Instantiating a class (`impl.implementation()`) is
  modelled by returning the class itself: two results are instances built
  from the same factory iff the returned `PyType`s are equal.
* Python `dict` is modelled by an association list with unique keys;
  item assignment replaces the value of an existing key in place and
  appends a new key at the end (`dictSet`); `dict.get(k, [])` is `dictFind`
  followed by `Option.getD []`.
* Python `list.sort(key=lambda x: x.priority, reverse=True)` is a stable
  sort by non-increasing priority; it is modelled by `List.insertionSort`
  over the total preorder `prioGE`, which is stable for the same preorder
  and therefore produces the same list as any stable sort.
* Python truthiness of optional arguments (`if preferred_name:`,
  `if required_capabilities:`) is modelled by `pyTruthyName` and
  `pyTruthyCaps`: `None` and the empty string / empty list are falsy.
* Raising an exception is modelled with `Except`: `Except.error` carries
  the `NexusError` with the formatted message string.
-/

namespace Nexus

/-- Capability enum from capabilities.py; `auto()` assigns values 1..12 in
declaration order, which only matters for the repr strings used in error
messages. -/
inductive Capability where
  | BASIC_READ
  | BASIC_WRITE
  | BULK_OPERATIONS
  | ADVANCED_SEARCH
  | CUSTOM_FIELDS
  | WEBHOOKS
  | WORKFLOW_AUTOMATION
  | REAL_TIME_UPDATES
  | API_ACCESS
  | RATE_LIMITING
  | CLI_AVAILABLE
  | INTERACTIVE_MODE
  deriving DecidableEq

/-- A Python class object: an identity and its dunder name. -/
structure PyType where
  id : Nat
  name : String
  deriving DecidableEq

/-- The Implementation dataclass from registry.py. -/
structure Implementation where
  interface : PyType
  implementation : PyType
  capabilities : List Capability
  priority : Int
  name : String
  deriving DecidableEq

/-- Constructing an Implementation dataclass value: the post-init hook
replaces an empty name with the implementation class dunder name. -/
def Implementation.make (interface : PyType) (implementation : PyType)
    (capabilities : List Capability) (priority : Int) (name : String) :
    Implementation :=
  { interface := interface, implementation := implementation,
    capabilities := capabilities, priority := priority,
    name := if name = "" then implementation.name else name }

/-- Python `x or d` for an optional string `x`: `None` and the empty string
both fall back to `d` (models `name or implementation.__name__`). -/
def pyStrOr : Option String → String → String
  | none, d => d
  | some s, d => if s = "" then d else s

/-- Python truthiness of the optional `preferred_name` argument:
`None` and the empty string are falsy. -/
def pyTruthyName : Option String → Bool
  | none => false
  | some s => !(s == "")

/-- Python truthiness of the optional `required_capabilities` argument:
`None` and the empty list are falsy. -/
def pyTruthyCaps : Option (List Capability) → Bool
  | none => false
  | some caps => !caps.isEmpty

/-- The sort order used by register: `a` may come before `b` iff the
priority of `b` is at most the priority of `a` (descending by priority).
Python sorts with `key=lambda x: x.priority, reverse=True`. -/
def prioGE (a b : Implementation) : Prop :=
  b.priority ≤ a.priority

instance : DecidableRel prioGE := fun a b => Int.decLe b.priority a.priority

instance : IsTotal Implementation prioGE :=
  ⟨fun a b => Int.le_total b.priority a.priority⟩

instance : IsTrans Implementation prioGE :=
  ⟨fun _ _ _ hab hbc => le_trans hbc hab⟩

/-- Lookup in the association list modelling the registry dict. -/
def dictFind : List (PyType × List Implementation) → PyType →
    Option (List Implementation)
  | [], _ => none
  | p :: rest, k => if p.1 = k then some p.2 else dictFind rest k

/-- Item assignment in the dict model: replace the value of an existing key
in place, append a new key at the end.  The membership check plus
item assignment in register collapses to one dictSet of the new bucket. -/
def dictSet : List (PyType × List Implementation) → PyType →
    List Implementation → List (PyType × List Implementation)
  | [], k, v => [(k, v)]
  | p :: rest, k, v => if p.1 = k then (k, v) :: rest else p :: dictSet rest k v

/-- The registry state: the private dict from interface to bucket. -/
structure ImplementationRegistry where
  impls : List (PyType × List Implementation)
  deriving DecidableEq

/-- A freshly constructed registry: the dict starts empty. -/
def ImplementationRegistry.empty : ImplementationRegistry := ⟨[]⟩

/-- register from registry.py: build the Implementation record (defaulting
the name to the implementation class dunder name), append it to the bucket
for the interface (an empty bucket if the key is new) and re-sort the
bucket stably by descending priority. -/
def ImplementationRegistry.register (self : ImplementationRegistry)
    (interface : PyType) (implementation : PyType)
    (capabilities : List Capability) (priority : Int) (name : Option String) :
    ImplementationRegistry :=
  let impl := Implementation.make interface implementation capabilities
    priority (pyStrOr name implementation.name)
  let bucket := (dictFind self.impls interface).getD []
  ⟨dictSet self.impls interface (List.insertionSort prioGE (bucket ++ [impl]))⟩

/-- get_implementations: the bucket for an interface, defaulting to the
empty list (dict get with default). -/
def ImplementationRegistry.get_implementations (self : ImplementationRegistry)
    (interface : PyType) : List Implementation :=
  (dictFind self.impls interface).getD []

/-- get_implementation_by_name: first record in the bucket whose name
matches (the for loop returns at the first hit). -/
def ImplementationRegistry.get_implementation_by_name
    (self : ImplementationRegistry) (interface : PyType) (name : String) :
    Option Implementation :=
  (self.get_implementations interface).find? (fun impl => impl.name == name)

/-- The capability superset test `all(cap in impl.capabilities for cap in
required_capabilities)` used both by the registry query and by the
preferred-name branch of the selector. -/
def hasAllCapabilities (impl : Implementation)
    (required : List Capability) : Bool :=
  required.all (fun cap => impl.capabilities.contains cap)

/-- get_implementations_with_capabilities: keep, in order, the records of
the bucket whose capability list contains every required capability. -/
def ImplementationRegistry.get_implementations_with_capabilities
    (self : ImplementationRegistry) (interface : PyType)
    (required_capabilities : List Capability) : List Implementation :=
  (self.get_implementations interface).filter
    (fun impl => hasAllCapabilities impl required_capabilities)

/-- The two error classes from exceptions.py that the selector raises,
each carrying its formatted message. -/
inductive NexusError where
  | NoImplementationError (msg : String)
  | NoCapableImplementationError (msg : String)
  deriving DecidableEq

/-- The single-quote character used by the f-string around the preferred
name. -/
def singleQuote : String := (Char.ofNat 39).toString

/-- Python repr of one Capability member, as it appears inside the str of
a list of members. -/
def Capability.pyRepr : Capability → String
  | .BASIC_READ => "<Capability.BASIC_READ: 1>"
  | .BASIC_WRITE => "<Capability.BASIC_WRITE: 2>"
  | .BULK_OPERATIONS => "<Capability.BULK_OPERATIONS: 3>"
  | .ADVANCED_SEARCH => "<Capability.ADVANCED_SEARCH: 4>"
  | .CUSTOM_FIELDS => "<Capability.CUSTOM_FIELDS: 5>"
  | .WEBHOOKS => "<Capability.WEBHOOKS: 6>"
  | .WORKFLOW_AUTOMATION => "<Capability.WORKFLOW_AUTOMATION: 7>"
  | .REAL_TIME_UPDATES => "<Capability.REAL_TIME_UPDATES: 8>"
  | .API_ACCESS => "<Capability.API_ACCESS: 9>"
  | .RATE_LIMITING => "<Capability.RATE_LIMITING: 10>"
  | .CLI_AVAILABLE => "<Capability.CLI_AVAILABLE: 11>"
  | .INTERACTIVE_MODE => "<Capability.INTERACTIVE_MODE: 12>"

/-- Python str of a list of Capability members, as interpolated into the
error message f-strings. -/
def pyListRepr (caps : List Capability) : String :=
  "[" ++ String.intercalate ", " (caps.map Capability.pyRepr) ++ "]"

/-- Message of the no-implementation error raised by get_tool. -/
def noImplementationMsg (interface : PyType) : String :=
  "No implementations registered for " ++ interface.name

/-- Message of the no-capable-implementation error raised on the
preferred-name branch of get_tool. -/
def preferredLacksCapsMsg (preferred_name : String)
    (required : List Capability) : String :=
  "Implementation " ++ singleQuote ++ preferred_name ++ singleQuote ++
    " does not have required capabilities: " ++ pyListRepr required

/-- Message of the no-capable-implementation error raised on the automatic
selection branch of get_tool. -/
def noCapableMsg (required : List Capability) : String :=
  "No implementation has required capabilities: " ++ pyListRepr required

/-- The selector holds the registry it queries. -/
structure ToolSelector where
  registry : ImplementationRegistry

/-- The part of get_tool after the preferred-name block (reached directly
when no truthy preferred name is given, and by fall-through when the
preferred name is not found): fail if the bucket is empty, filter by the
required capabilities when given (failing if nothing survives), otherwise
take the head of the bucket. -/
def ToolSelector.autoSelect (self : ToolSelector) (interface : PyType)
    (required_capabilities : Option (List Capability)) :
    Except NexusError PyType :=
  match self.registry.get_implementations interface with
  | [] =>
    Except.error (NexusError.NoImplementationError (noImplementationMsg interface))
  | impl :: _ =>
    if pyTruthyCaps required_capabilities then
      match self.registry.get_implementations_with_capabilities interface
          (required_capabilities.getD []) with
      | [] =>
        Except.error (NexusError.NoCapableImplementationError
          (noCapableMsg (required_capabilities.getD [])))
      | capable :: _ => Except.ok capable.implementation
    else
      Except.ok impl.implementation

/-- get_tool from selector.py.  When a truthy preferred name is given and
found, the found record short-circuits the rest: it is capability-checked
(only when truthy capabilities were required) and returned or rejected.
A preferred name that is not found falls through silently. -/
def ToolSelector.get_tool (self : ToolSelector) (interface : PyType)
    (required_capabilities : Option (List Capability))
    (preferred_name : Option String) : Except NexusError PyType :=
  if pyTruthyName preferred_name then
    match self.registry.get_implementation_by_name interface
        (preferred_name.getD "") with
    | some impl =>
      if pyTruthyCaps required_capabilities then
        if hasAllCapabilities impl (required_capabilities.getD []) then
          Except.ok impl.implementation
        else
          Except.error (NexusError.NoCapableImplementationError
            (preferredLacksCapsMsg (preferred_name.getD "")
              (required_capabilities.getD [])))
      else
        Except.ok impl.implementation
    | none => self.autoSelect interface required_capabilities
  else
    self.autoSelect interface required_capabilities

/-- One register call into a fixed interface: the varying arguments. -/
structure RegCall where
  implementation : PyType
  capabilities : List Capability
  priority : Int
  name : Option String
  deriving DecidableEq

/-- The Implementation record a register call constructs. -/
def RegCall.record (interface : PyType) (c : RegCall) : Implementation :=
  Implementation.make interface c.implementation c.capabilities c.priority
    (pyStrOr c.name c.implementation.name)

/-- Replay a sequence of register calls into one interface. -/
def registerAll (r : ImplementationRegistry) (interface : PyType)
    (calls : List RegCall) : ImplementationRegistry :=
  calls.foldl
    (fun acc c =>
      acc.register interface c.implementation c.capabilities c.priority c.name)
    r

/-- Demo interface from the testable-properties section of the spec. -/
def CodeHost : PyType := ⟨0, "CodeHost"⟩

/-- Demo implementation class registered as gitlab-api. -/
def GitLabAPITool : PyType := ⟨1, "GitLabAPITool"⟩

/-- Demo implementation class registered as gitlab-cli. -/
def GitLabCLITool : PyType := ⟨2, "GitLabCLITool"⟩

/-- Demo registry: gitlab-api at priority 2 with api capabilities, then
gitlab-cli at priority 1 with cli capabilities. -/
def demoRegistry : ImplementationRegistry :=
  (ImplementationRegistry.empty.register CodeHost GitLabAPITool
      [Capability.BASIC_READ, Capability.BASIC_WRITE,
        Capability.ADVANCED_SEARCH, Capability.API_ACCESS]
      2 (some "gitlab-api")).register CodeHost GitLabCLITool
    [Capability.BASIC_READ, Capability.CLI_AVAILABLE] 1 (some "gitlab-cli")

/-- The record stored for gitlab-api in the demo registry. -/
def implAPI : Implementation :=
  Implementation.make CodeHost GitLabAPITool
    [Capability.BASIC_READ, Capability.BASIC_WRITE,
      Capability.ADVANCED_SEARCH, Capability.API_ACCESS] 2 "gitlab-api"

/-- The record stored for gitlab-cli in the demo registry. -/
def implCLI : Implementation :=
  Implementation.make CodeHost GitLabCLITool
    [Capability.BASIC_READ, Capability.CLI_AVAILABLE] 1 "gitlab-cli"

/-- Pure evolution of one interface bucket under a sequence of register
calls: append the new record, then re-sort stably by descending priority. -/
def bucketAfter (interface : PyType) (calls : List RegCall)
    (b0 : List Implementation) : List Implementation :=
  calls.foldl (fun b c => List.insertionSort prioGE (b ++ [RegCall.record interface c])) b0

/-- Demo implementation class used for an equal-priority registration. -/
def XTool : PyType := ⟨3, "XTool"⟩

/-- Demo register-call sequence with a priority tie between the first and
the third call, exercising stability. -/
def demoCalls : List RegCall :=
  [⟨GitLabAPITool,
      [Capability.BASIC_READ, Capability.BASIC_WRITE,
        Capability.ADVANCED_SEARCH, Capability.API_ACCESS], 2, some "gitlab-api"⟩,
    ⟨GitLabCLITool, [Capability.BASIC_READ, Capability.CLI_AVAILABLE], 1,
      some "gitlab-cli"⟩,
    ⟨XTool, [], 2, some "x-tool"⟩]

end Nexus

namespace Nexus

/-- Updating a key of the dict model and reading it back gives the new
value. -/
theorem dictFind_dictSet (d : List (PyType × List Implementation)) (k : PyType)
    (v : List Implementation) : dictFind (dictSet d k v) k = some v := by
  induction d with
  | nil => simp [dictSet, dictFind]
  | cons p rest ih =>
    by_cases h : p.1 = k
    · simp [dictSet, dictFind, h]
    · simp [dictSet, dictFind, h, ih]

/-- The bucket read back after one register call is the stable descending
re-sort of the old bucket with the new record appended. -/
theorem register_get_implementations (r : ImplementationRegistry) (I c : PyType)
    (caps : List Capability) (p : Int) (n : Option String) :
    (r.register I c caps p n).get_implementations I
      = List.insertionSort prioGE
          (r.get_implementations I ++ [Implementation.make I c caps p (pyStrOr n c.name)]) := by
  simp [ImplementationRegistry.register, ImplementationRegistry.get_implementations,
    dictFind_dictSet]

/-- Replaying register calls evolves the interface bucket exactly as the
pure bucket evolution bucketAfter does. -/
theorem registerAll_get_implementations (I : PyType) (calls : List RegCall) :
    ∀ r : ImplementationRegistry,
      (registerAll r I calls).get_implementations I
        = bucketAfter I calls (r.get_implementations I) := by
  induction calls with
  | nil => intro r; rfl
  | cons c cs ih =>
    intro r
    have h1 : registerAll r I (c :: cs)
        = registerAll (r.register I c.implementation c.capabilities c.priority c.name) I cs := rfl
    have h2 : bucketAfter I (c :: cs) (r.get_implementations I)
        = bucketAfter I cs
            (List.insertionSort prioGE (r.get_implementations I ++ [RegCall.record I c])) := rfl
    rw [h1, ih, register_get_implementations, h2]
    rfl

/-- Stability of the sort: the records carrying one fixed priority appear
in the sorted list exactly as they appeared in the input list. -/
theorem filter_priority_insertionSort (l : List Implementation) (q : Int) :
    (List.insertionSort prioGE l).filter (fun x => x.priority == q)
      = l.filter (fun x => x.priority == q) := by
  have hmem : ∀ x ∈ l.filter (fun x : Implementation => x.priority == q), x.priority = q := by
    intro x hx
    have h := (List.mem_filter.mp hx).2
    simpa using h
  have hpair : (l.filter (fun x : Implementation => x.priority == q)).Pairwise prioGE := by
    apply List.pairwise_of_forall_mem_list
    intro a ha b hb
    show b.priority ≤ a.priority
    rw [hmem a ha, hmem b hb]
  have hsub : List.Sublist (l.filter (fun x : Implementation => x.priority == q))
      (List.insertionSort prioGE l) :=
    List.sublist_insertionSort hpair (List.filter_sublist l)
  have hself : (l.filter (fun x : Implementation => x.priority == q)).filter
        (fun x => x.priority == q)
      = l.filter (fun x : Implementation => x.priority == q) :=
    List.filter_eq_self.mpr (fun a ha => (List.mem_filter.mp ha).2)
  have hsub2 := hsub.filter (fun x : Implementation => x.priority == q)
  rw [hself] at hsub2
  have hlen : ((List.insertionSort prioGE l).filter
        (fun x : Implementation => x.priority == q)).length
      = (l.filter (fun x : Implementation => x.priority == q)).length :=
    ((List.perm_insertionSort prioGE l).filter _).length_eq
  exact (hsub2.eq_of_length hlen.symm).symm

/-- The bucket evolution preserves sortedness. -/
theorem bucketAfter_sorted (I : PyType) (calls : List RegCall) :
    ∀ b0 : List Implementation, b0.Pairwise prioGE →
      (bucketAfter I calls b0).Pairwise prioGE := by
  induction calls with
  | nil => intro b0 h; exact h
  | cons c cs ih =>
    intro b0 _
    have h0 : bucketAfter I (c :: cs) b0
        = bucketAfter I cs (List.insertionSort prioGE (b0 ++ [RegCall.record I c])) := rfl
    rw [h0]
    exact ih _ (List.sorted_insertionSort prioGE _)

/-- Per-priority content of the evolved bucket: the starting content
followed by the registered records of that priority, in call order. -/
theorem bucketAfter_filter (I : PyType) (q : Int) (calls : List RegCall) :
    ∀ b0 : List Implementation,
      (bucketAfter I calls b0).filter (fun x => x.priority == q)
        = b0.filter (fun x => x.priority == q)
          ++ ((calls.map (RegCall.record I)).filter (fun x => x.priority == q)) := by
  induction calls with
  | nil => intro b0; simp [bucketAfter]
  | cons c cs ih =>
    intro b0
    have h0 : bucketAfter I (c :: cs) b0
        = bucketAfter I cs (List.insertionSort prioGE (b0 ++ [RegCall.record I c])) := rfl
    rw [h0, ih, filter_priority_insertionSort, List.filter_append, List.map_cons,
      List.append_assoc, ← List.filter_append, List.singleton_append]

/-- The boolean capability-superset test holds iff every required
capability is a member of the capability list. -/
theorem hasAllCapabilities_iff (impl : Implementation) (R : List Capability) :
    hasAllCapabilities impl R = true ↔ ∀ cap ∈ R, cap ∈ impl.capabilities := by
  simp [hasAllCapabilities, List.all_eq_true, List.contains, List.elem_iff]

/-- The boolean capability-superset test is the decision procedure of the
superset proposition. -/
theorem hasAllCapabilities_eq_decide (impl : Implementation) (R : List Capability) :
    hasAllCapabilities impl R = decide (∀ cap ∈ R, cap ∈ impl.capabilities) := by
  by_cases h : ∀ cap ∈ R, cap ∈ impl.capabilities
  · rw [decide_eq_true h]
    exact (hasAllCapabilities_iff impl R).mpr h
  · have hf : hasAllCapabilities impl R = false := by
      rw [← Bool.not_eq_true]
      exact fun ht => h ((hasAllCapabilities_iff impl R).mp ht)
    simp [h, hf]

/-- C1: after any sequence of register calls into one interface bucket of a
registry whose bucket started empty, the bucket is sorted by non-increasing
priority, and for every priority value the records carrying it are exactly
the records registered with it, in registration order (stability). -/
theorem register_keeps_bucket_sorted_and_stable (r0 : ImplementationRegistry)
    (I : PyType) (calls : List RegCall) (h0 : r0.get_implementations I = []) :
    List.Sorted prioGE ((registerAll r0 I calls).get_implementations I) ∧
    ∀ q : Int,
      ((registerAll r0 I calls).get_implementations I).filter (fun x => x.priority == q)
        = (calls.map (RegCall.record I)).filter (fun x => x.priority == q) := by
  rw [registerAll_get_implementations, h0]
  refine ⟨bucketAfter_sorted I calls [] List.Pairwise.nil, ?_⟩
  intro q
  rw [bucketAfter_filter]
  simp

/-- C2: on an interface whose bucket is non-empty, get_tool with no
required capabilities and no preferred name returns an instance built from
the factory of the first (highest-priority) record of the bucket. -/
theorem get_tool_default_returns_highest_priority (r : ImplementationRegistry)
    (I : PyType) (impl : Implementation) (rest : List Implementation)
    (h : r.get_implementations I = impl :: rest) :
    (ToolSelector.mk r).get_tool I none none = Except.ok impl.implementation := by
  simp [ToolSelector.get_tool, pyTruthyName, ToolSelector.autoSelect, h, pyTruthyCaps]

/-- C3: the capability query returns exactly the records of the bucket
whose capability set is a superset of the required set, in bucket order,
and returns the empty list whenever some required capability is held by no
registered record of the interface. -/
theorem get_implementations_with_capabilities_spec (r : ImplementationRegistry)
    (I : PyType) (R : List Capability) :
    r.get_implementations_with_capabilities I R
      = (r.get_implementations I).filter
          (fun impl => decide (∀ cap ∈ R, cap ∈ impl.capabilities)) ∧
    ((∃ cap ∈ R, ∀ impl ∈ r.get_implementations I, cap ∉ impl.capabilities) →
      r.get_implementations_with_capabilities I R = []) := by
  have hfil : r.get_implementations_with_capabilities I R
      = (r.get_implementations I).filter
          (fun impl => decide (∀ cap ∈ R, cap ∈ impl.capabilities)) := by
    unfold ImplementationRegistry.get_implementations_with_capabilities
    exact List.filter_congr (fun a _ => hasAllCapabilities_eq_decide a R)
  refine ⟨hfil, ?_⟩
  rintro ⟨cap, hcapR, hnone⟩
  unfold ImplementationRegistry.get_implementations_with_capabilities
  rw [List.filter_eq_nil_iff]
  intro a ha hall
  exact hnone a ha ((hasAllCapabilities_iff a R).mp hall cap hcapR)

/-- C4: when the preferred name is found but the found record lacks some of
the non-empty required capabilities, get_tool fails with a
no-capable-implementation error whose message contains the preferred name;
the registry is arbitrary, so this holds even when another registered
record satisfies the required capabilities. -/
theorem get_tool_preferred_lacking_caps_errors (r : ImplementationRegistry)
    (I : PyType) (pname : String) (impl : Implementation) (R : List Capability)
    (hp : pname ≠ "")
    (hfound : r.get_implementation_by_name I pname = some impl)
    (hR : R ≠ [])
    (hmiss : ¬ ∀ cap ∈ R, cap ∈ impl.capabilities) :
    (ToolSelector.mk r).get_tool I (some R) (some pname)
      = Except.error (NexusError.NoCapableImplementationError
          (preferredLacksCapsMsg pname R)) ∧
    ∃ a b : String, preferredLacksCapsMsg pname R = a ++ pname ++ b := by
  constructor
  · have hnotall : hasAllCapabilities impl R = false := by
      rw [← Bool.not_eq_true]
      exact fun ht => hmiss ((hasAllCapabilities_iff impl R).mp ht)
    simp [ToolSelector.get_tool, pyTruthyName, hp, hfound, pyTruthyCaps, hR, hnotall]
  · exact ⟨"Implementation " ++ singleQuote,
      singleQuote ++ " does not have required capabilities: " ++ pyListRepr R,
      by simp [preferredLacksCapsMsg, String.append_assoc]⟩

/-- C5: a preferred name that matches no registered record raises no error
and falls back silently: the result equals the result without a preferred
name, and with no capability requirement it is an instance of the
highest-priority record. -/
theorem get_tool_unknown_preferred_falls_back (r : ImplementationRegistry)
    (I : PyType) (R : Option (List Capability)) (pname : String)
    (hnf : r.get_implementation_by_name I pname = none) :
    (ToolSelector.mk r).get_tool I R (some pname)
      = (ToolSelector.mk r).get_tool I R none ∧
    ∀ impl rest, r.get_implementations I = impl :: rest → R = none →
      (ToolSelector.mk r).get_tool I R (some pname) = Except.ok impl.implementation := by
  have heq : (ToolSelector.mk r).get_tool I R (some pname)
      = (ToolSelector.mk r).get_tool I R none := by
    by_cases hp : pname = ""
    · subst hp; rfl
    · simp [ToolSelector.get_tool, pyTruthyName, hp, hnf]
  refine ⟨heq, ?_⟩
  intro impl rest hb hRnone
  subst hRnone
  rw [heq]
  simp [ToolSelector.get_tool, pyTruthyName, ToolSelector.autoSelect, hb, pyTruthyCaps]

/-- C6: on an interface with zero registered implementations, get_tool
fails, for every combination of the optional arguments, with exactly the
no-implementation error, whose message names the interface. -/
theorem get_tool_no_implementations_errors (r : ImplementationRegistry) (I : PyType)
    (R : Option (List Capability)) (pname : Option String)
    (h : r.get_implementations I = []) :
    (ToolSelector.mk r).get_tool I R pname
      = Except.error (NexusError.NoImplementationError (noImplementationMsg I)) ∧
    ∃ a b : String, noImplementationMsg I = a ++ I.name ++ b := by
  constructor
  · have hlook : ∀ s : String, r.get_implementation_by_name I s = none := by
      intro s
      simp [ImplementationRegistry.get_implementation_by_name, h]
    have hauto : (ToolSelector.mk r).autoSelect I R
        = Except.error (NexusError.NoImplementationError (noImplementationMsg I)) := by
      simp [ToolSelector.autoSelect, h]
    by_cases ht : pyTruthyName pname = true
    · simp [ToolSelector.get_tool, ht, hlook, hauto]
    · rw [Bool.not_eq_true] at ht
      simp [ToolSelector.get_tool, ht, hauto]
  · exact ⟨"No implementations registered for ", "", by simp [noImplementationMsg]⟩

/-- C7: with a non-empty required-capability set and no preferred name, on
a non-empty bucket: if no record is a capability superset, get_tool fails
with a no-capable-implementation error whose message lists the required
capabilities; otherwise it returns an instance of the first record in
bucket (priority) order whose capabilities are a superset. -/
theorem get_tool_required_caps_selection (r : ImplementationRegistry) (I : PyType)
    (R : List Capability) (impl : Implementation) (rest : List Implementation)
    (hne : r.get_implementations I = impl :: rest) (hR : R ≠ []) :
    ((∀ i ∈ r.get_implementations I, ¬ ∀ cap ∈ R, cap ∈ i.capabilities) →
      (ToolSelector.mk r).get_tool I (some R) none
        = Except.error (NexusError.NoCapableImplementationError (noCapableMsg R)) ∧
      ∃ a b : String, noCapableMsg R = a ++ pyListRepr R ++ b) ∧
    ∀ c : Implementation,
      (r.get_implementations I).find?
          (fun i => decide (∀ cap ∈ R, cap ∈ i.capabilities)) = some c →
      (ToolSelector.mk r).get_tool I (some R) none = Except.ok c.implementation := by
  constructor
  · intro hnone
    have hfilter_nil : r.get_implementations_with_capabilities I R = [] := by
      unfold ImplementationRegistry.get_implementations_with_capabilities
      rw [List.filter_eq_nil_iff]
      intro a ha hall
      exact hnone a ha ((hasAllCapabilities_iff a R).mp hall)
    refine ⟨?_, "No implementation has required capabilities: ", "",
      by simp [noCapableMsg]⟩
    simp [ToolSelector.get_tool, pyTruthyName, ToolSelector.autoSelect, hne,
      pyTruthyCaps, hR, hfilter_nil]
  · intro c hc
    have hcap_filter : r.get_implementations_with_capabilities I R
        = (r.get_implementations I).filter
            (fun i => decide (∀ cap ∈ R, cap ∈ i.capabilities)) := by
      unfold ImplementationRegistry.get_implementations_with_capabilities
      exact List.filter_congr (fun a _ => hasAllCapabilities_eq_decide a R)
    have hhead : (r.get_implementations_with_capabilities I R).head? = some c := by
      rw [hcap_filter, List.filter_head?]
      exact hc
    obtain ⟨tl, htl⟩ : ∃ tl, r.get_implementations_with_capabilities I R = c :: tl := by
      cases hcl : r.get_implementations_with_capabilities I R with
      | nil => rw [hcl] at hhead; simp at hhead
      | cons x xs =>
        rw [hcl] at hhead
        simp at hhead
        exact ⟨xs, by rw [hhead]⟩
    simp [ToolSelector.get_tool, pyTruthyName, ToolSelector.autoSelect, hne,
      pyTruthyCaps, hR, htl]

/-- C8: name lookup returns none exactly when no record of the bucket
carries the name, and a returned record carries the name and is the first
record in bucket (priority) order doing so. -/
theorem get_implementation_by_name_spec (r : ImplementationRegistry) (I : PyType)
    (n : String) :
    (r.get_implementation_by_name I n = none ↔
      ∀ impl ∈ r.get_implementations I, impl.name ≠ n) ∧
    ∀ impl, r.get_implementation_by_name I n = some impl →
      impl.name = n ∧
      ∃ pre post, r.get_implementations I = pre ++ impl :: post ∧
        ∀ x ∈ pre, x.name ≠ n := by
  constructor
  · unfold ImplementationRegistry.get_implementation_by_name
    rw [List.find?_eq_none]
    constructor
    · intro h impl hm
      have hx := h impl hm
      simpa using hx
    · intro h impl hm
      simpa using h impl hm
  · intro impl h
    unfold ImplementationRegistry.get_implementation_by_name at h
    rw [List.find?_eq_some] at h
    obtain ⟨hpn, pre, post, hsplit, hpre⟩ := h
    refine ⟨by simpa using hpn, pre, post, hsplit, ?_⟩
    intro x hx
    have hb := hpre x hx
    simpa using hb

/-- C9: an empty-but-present required-capability list behaves exactly like
no required capabilities: same result for every preferred name, and a
no-capable-implementation error is impossible. -/
theorem get_tool_empty_caps_eq_none (r : ImplementationRegistry) (I : PyType)
    (pname : Option String) :
    (ToolSelector.mk r).get_tool I (some []) pname
      = (ToolSelector.mk r).get_tool I none pname ∧
    ∀ msg, (ToolSelector.mk r).get_tool I (some []) pname
      ≠ Except.error (NexusError.NoCapableImplementationError msg) := by
  have hauto_eq : (ToolSelector.mk r).autoSelect I (some [])
      = (ToolSelector.mk r).autoSelect I none := by
    unfold ToolSelector.autoSelect
    cases r.get_implementations I <;> rfl
  constructor
  · unfold ToolSelector.get_tool
    by_cases ht : pyTruthyName pname = true
    · rw [ht]
      cases hl : r.get_implementation_by_name I (pname.getD "") with
      | none => simp [hl, hauto_eq]
      | some impl => simp [hl, pyTruthyCaps]
    · rw [Bool.not_eq_true] at ht
      simp [ht, hauto_eq]
  · intro msg
    unfold ToolSelector.get_tool
    by_cases ht : pyTruthyName pname = true
    · rw [ht]
      cases hl : r.get_implementation_by_name I (pname.getD "") with
      | some impl => simp [hl, pyTruthyCaps]
      | none =>
        cases hb : r.get_implementations I with
        | nil => simp [hl, ToolSelector.autoSelect, hb]
        | cons x xs => simp [hl, ToolSelector.autoSelect, hb, pyTruthyCaps]
    · rw [Bool.not_eq_true] at ht
      cases hb : r.get_implementations I with
      | nil => simp [ht, ToolSelector.autoSelect, hb]
      | cons x xs => simp [ht, ToolSelector.autoSelect, hb, pyTruthyCaps]

/-- C10: the empty string as preferred name is treated as no name
preference at all (the lookup is skipped and automatic selection runs),
and a register call with the empty name stores the record under the
implementation class dunder name, so no record is ever registered under
the empty name. -/
theorem get_tool_empty_preferred_name_eq_none (r : ImplementationRegistry)
    (I : PyType) (R : Option (List Capability)) :
    (ToolSelector.mk r).get_tool I R (some "")
      = (ToolSelector.mk r).get_tool I R none ∧
    ∀ (c : PyType) (caps : List Capability) (p : Int),
      (RegCall.record I ⟨c, caps, p, some ""⟩).name = c.name := by
  refine ⟨rfl, ?_⟩
  intro c caps p
  simp [RegCall.record, Implementation.make, pyStrOr]

end Nexus

namespace Nexus

/-- Witness for C1: three concrete register calls (priorities 2, 1, 2) on a
fresh registry; the empty-bucket hypothesis is discharged by rfl and the
stability conclusion is read off at priority 2, where the tie sits. -/
theorem register_sorted_stable_witness :
    ImplementationRegistry.empty.get_implementations CodeHost = [] ∧
    List.Sorted prioGE
      ((registerAll ImplementationRegistry.empty CodeHost demoCalls).get_implementations
        CodeHost) ∧
    ((registerAll ImplementationRegistry.empty CodeHost demoCalls).get_implementations
        CodeHost).filter (fun x => x.priority == (2 : Int))
      = (demoCalls.map (RegCall.record CodeHost)).filter
          (fun x => x.priority == (2 : Int)) :=
  ⟨rfl,
    (register_keeps_bucket_sorted_and_stable ImplementationRegistry.empty CodeHost
      demoCalls rfl).1,
    (register_keeps_bucket_sorted_and_stable ImplementationRegistry.empty CodeHost
      demoCalls rfl).2 2⟩

/-- Witness for C2: the demo registry (gitlab-api at priority 2, gitlab-cli
at priority 1) returns the gitlab-api factory result. -/
theorem get_tool_default_witness :
    demoRegistry.get_implementations CodeHost = implAPI :: [implCLI] ∧
    (ToolSelector.mk demoRegistry).get_tool CodeHost none none
      = Except.ok implAPI.implementation ∧
    implAPI.implementation = GitLabAPITool :=
  ⟨rfl,
    get_tool_default_returns_highest_priority demoRegistry CodeHost implAPI
      [implCLI] rfl,
    rfl⟩

/-- Witness for C3: the capability query on the demo registry, including
the empty result for a capability nobody holds. -/
theorem get_implementations_with_capabilities_witness :
    demoRegistry.get_implementations_with_capabilities CodeHost
        [Capability.ADVANCED_SEARCH]
      = (demoRegistry.get_implementations CodeHost).filter
          (fun impl =>
            decide (∀ cap ∈ [Capability.ADVANCED_SEARCH], cap ∈ impl.capabilities)) ∧
    demoRegistry.get_implementations_with_capabilities CodeHost
        [Capability.WEBHOOKS] = [] :=
  ⟨(get_implementations_with_capabilities_spec demoRegistry CodeHost
      [Capability.ADVANCED_SEARCH]).1,
    (get_implementations_with_capabilities_spec demoRegistry CodeHost
      [Capability.WEBHOOKS]).2 (by decide)⟩

/-- Witness for C4: preferring gitlab-cli while requiring advanced search
fails with the preferred name in the message, although gitlab-api would
satisfy the requirement. -/
theorem get_tool_preferred_lacking_caps_witness :
    "gitlab-cli" ≠ "" ∧
    demoRegistry.get_implementation_by_name CodeHost "gitlab-cli" = some implCLI ∧
    [Capability.ADVANCED_SEARCH] ≠ ([] : List Capability) ∧
    ¬(∀ cap ∈ [Capability.ADVANCED_SEARCH], cap ∈ implCLI.capabilities) ∧
    ((ToolSelector.mk demoRegistry).get_tool CodeHost
        (some [Capability.ADVANCED_SEARCH]) (some "gitlab-cli")
      = Except.error (NexusError.NoCapableImplementationError
          (preferredLacksCapsMsg "gitlab-cli" [Capability.ADVANCED_SEARCH])) ∧
      ∃ a b : String,
        preferredLacksCapsMsg "gitlab-cli" [Capability.ADVANCED_SEARCH]
          = a ++ "gitlab-cli" ++ b) :=
  ⟨by decide, rfl, by decide, by decide,
    get_tool_preferred_lacking_caps_errors demoRegistry CodeHost "gitlab-cli"
      implCLI [Capability.ADVANCED_SEARCH] (by decide) rfl (by decide) (by decide)⟩

/-- Witness for C5: an unknown preferred name on the demo registry falls
back silently to the highest-priority gitlab-api record. -/
theorem get_tool_unknown_preferred_witness :
    demoRegistry.get_implementation_by_name CodeHost "nonexistent" = none ∧
    (ToolSelector.mk demoRegistry).get_tool CodeHost none (some "nonexistent")
      = (ToolSelector.mk demoRegistry).get_tool CodeHost none none ∧
    (ToolSelector.mk demoRegistry).get_tool CodeHost none (some "nonexistent")
      = Except.ok implAPI.implementation ∧
    implAPI.implementation = GitLabAPITool :=
  ⟨rfl,
    (get_tool_unknown_preferred_falls_back demoRegistry CodeHost none
      "nonexistent" rfl).1,
    (get_tool_unknown_preferred_falls_back demoRegistry CodeHost none
      "nonexistent" rfl).2 implAPI [implCLI] rfl rfl,
    rfl⟩

/-- Witness for C6: get_tool on a fresh registry fails with the
no-implementation error naming the interface. -/
theorem get_tool_no_implementations_witness :
    ImplementationRegistry.empty.get_implementations CodeHost = [] ∧
    ((ToolSelector.mk ImplementationRegistry.empty).get_tool CodeHost none none
      = Except.error (NexusError.NoImplementationError (noImplementationMsg CodeHost)) ∧
      ∃ a b : String, noImplementationMsg CodeHost = a ++ CodeHost.name ++ b) :=
  ⟨rfl,
    get_tool_no_implementations_errors ImplementationRegistry.empty CodeHost
      none none rfl⟩

/-- Witness for C7: requiring advanced search on the demo registry selects
gitlab-api; requiring webhooks, which nobody holds, fails with the
no-capable-implementation error. -/
theorem get_tool_required_caps_witness :
    demoRegistry.get_implementations CodeHost = implAPI :: [implCLI] ∧
    [Capability.ADVANCED_SEARCH] ≠ ([] : List Capability) ∧
    (demoRegistry.get_implementations CodeHost).find?
        (fun i => decide (∀ cap ∈ [Capability.ADVANCED_SEARCH], cap ∈ i.capabilities))
      = some implAPI ∧
    (ToolSelector.mk demoRegistry).get_tool CodeHost
        (some [Capability.ADVANCED_SEARCH]) none = Except.ok implAPI.implementation ∧
    implAPI.implementation = GitLabAPITool ∧
    (ToolSelector.mk demoRegistry).get_tool CodeHost (some [Capability.WEBHOOKS]) none
      = Except.error (NexusError.NoCapableImplementationError
          (noCapableMsg [Capability.WEBHOOKS])) :=
  ⟨rfl, by decide, by decide,
    (get_tool_required_caps_selection demoRegistry CodeHost
      [Capability.ADVANCED_SEARCH] implAPI [implCLI] rfl (by decide)).2 implAPI
      (by decide),
    rfl,
    ((get_tool_required_caps_selection demoRegistry CodeHost [Capability.WEBHOOKS]
      implAPI [implCLI] rfl (by decide)).1 (by decide)).1⟩

/-- Witness for C8: name lookup on the demo registry, for a name never
registered and for gitlab-cli. -/
theorem get_implementation_by_name_witness :
    (demoRegistry.get_implementation_by_name CodeHost "nonexistent" = none ↔
      ∀ impl ∈ demoRegistry.get_implementations CodeHost,
        impl.name ≠ "nonexistent") ∧
    (implCLI.name = "gitlab-cli" ∧
      ∃ pre post, demoRegistry.get_implementations CodeHost = pre ++ implCLI :: post ∧
        ∀ x ∈ pre, x.name ≠ "gitlab-cli") :=
  ⟨(get_implementation_by_name_spec demoRegistry CodeHost "nonexistent").1,
    (get_implementation_by_name_spec demoRegistry CodeHost "gitlab-cli").2 implCLI rfl⟩

/-- Witness for C9: the empty capability list on the demo registry equals
the no-capabilities call and cannot produce a no-capable-implementation
error. -/
theorem get_tool_empty_caps_witness :
    (ToolSelector.mk demoRegistry).get_tool CodeHost (some []) none
      = (ToolSelector.mk demoRegistry).get_tool CodeHost none none ∧
    (ToolSelector.mk demoRegistry).get_tool CodeHost (some []) none
      ≠ Except.error (NexusError.NoCapableImplementationError "boom") :=
  ⟨(get_tool_empty_caps_eq_none demoRegistry CodeHost none).1,
    (get_tool_empty_caps_eq_none demoRegistry CodeHost none).2 "boom"⟩

/-- Witness for C10: the empty preferred name on the demo registry equals
the no-preference call, and registering with the empty name stores the
class dunder name. -/
theorem get_tool_empty_preferred_witness :
    (ToolSelector.mk demoRegistry).get_tool CodeHost none (some "")
      = (ToolSelector.mk demoRegistry).get_tool CodeHost none none ∧
    (RegCall.record CodeHost ⟨GitLabAPITool, [], 0, some ""⟩).name
      = GitLabAPITool.name :=
  ⟨(get_tool_empty_preferred_name_eq_none demoRegistry CodeHost none).1,
    (get_tool_empty_preferred_name_eq_none demoRegistry CodeHost none).2
      GitLabAPITool [] 0⟩

end Nexus
